import Mathlib

/-!
Shallow embedding of `go-switcher` (src/main.go), a CLI that manages Go
toolchain installations under a fixed root directory
`/usr/local/bin/go-switcher`, laid out as `<root>/<version>/<arch>/`.

Go strings are modelled as `List Char` (`Str`).  The filesystem state that
the four operations (`list`, `download`, `clean`, `switch`) touch is
modelled by `World`: the root directory's entries (two levels deep, which
is all the code ever reads), an existence predicate for the `os.Stat`
check on a resolved version directory, and the content of the user's
`~/.profile` file (`none` when the file does not exist, i.e. when
`os.ReadFile` fails).  Side effects of `switch` and `download` are
recorded as event traces in program order.

All definitions are translated from src/main.go; `Config.GoDownloadDir`
is always the constant `goDownloadDir`, so it is embedded as a constant.
-/

/-- Go strings, modelled as lists of characters. -/
abbrev Str := List Char

/-- Go `strings.HasPrefix`-style check used to implement `strings.Contains`:
`strStartsWith s pre` is true when `pre` is a prefix of `s`. -/
def strStartsWith : Str → Str → Bool
  | _, [] => true
  | [], _ :: _ => false
  | c :: s, d :: pre => c == d && strStartsWith s pre

/-- Go `strings.Contains s sub`: `sub` occurs as a contiguous substring of `s`. -/
def strContains : Str → Str → Bool
  | [], sub => sub.isEmpty
  | c :: s, sub => strStartsWith (c :: s) sub || strContains s sub

/-- Go `strings.Split s "\n"`: split on every newline; always returns at
least one (possibly empty) piece. -/
def splitLines : Str → List Str
  | [] => [[]]
  | c :: cs =>
    match splitLines cs with
    | [] => [[]]
    | l :: ls => if c = '\n' then [] :: l :: ls else (c :: l) :: ls

/-- Go `strings.Join lines "\n"`. -/
def joinLines : List Str → Str
  | [] => []
  | [l] => l
  | l :: ls => l ++ '\n' :: joinLines ls

/-- The fixed root directory (Go constant `goDownloadDir`). -/
def goDownloadDir : Str := "/usr/local/bin/go-switcher".toList

/-- First dropped substring in the profile rewrite (src/main.go line 340). -/
def pathMarker : Str := "export PATH=$PATH:".toList

/-- Second dropped substring in the profile rewrite (src/main.go line 341). -/
def gopathMarker : Str := "export GOPATH=".toList

/-- Third dropped substring in the profile rewrite (src/main.go line 342). -/
def gorootMarker : Str := "export GOROOT=".toList

/-- The filter condition of the profile rewrite: a line is kept iff it
contains none of the three marker substrings (src/main.go lines 339-344). -/
def keepLine (line : Str) : Bool :=
  !strContains line pathMarker && !strContains line gopathMarker &&
    !strContains line gorootMarker

/-- Local `goBinPath` of src/main.go line 313: `<versionDir>/go/bin`. -/
def goBinPath (versionDir : Str) : Str := versionDir ++ "/go/bin".toList

/-- Local `goPath` of src/main.go line 314: `<versionDir>/workspace`. -/
def goPath (versionDir : Str) : Str := versionDir ++ "/workspace".toList

/-- Local `goRoot` of src/main.go line 315: `<versionDir>/go`. -/
def goRoot (versionDir : Str) : Str := versionDir ++ "/go".toList

/-- The comment line appended by the rewrite (src/main.go line 347). -/
def commentLine : Str := "# Go environment variables".toList

/-- The new PATH export line (src/main.go line 348). -/
def pathExportLine (versionDir : Str) : Str := pathMarker ++ goBinPath versionDir

/-- The new GOPATH export line (src/main.go line 349). -/
def gopathExportLine (versionDir : Str) : Str := gopathMarker ++ goPath versionDir

/-- The new GOROOT export line (src/main.go line 350). -/
def gorootExportLine (versionDir : Str) : Str := gorootMarker ++ goRoot versionDir

/-- The five lines appended after the filtered profile
(src/main.go lines 346-350): a blank line, a comment, and three exports. -/
def newExportLines (versionDir : Str) : List Str :=
  [[], commentLine, pathExportLine versionDir, gopathExportLine versionDir,
   gorootExportLine versionDir]

/-- The profile rewrite of `switchGoVersion` (src/main.go lines 336-353):
split the old content into lines, keep the lines containing none of the
three markers, append the new block, and join with newlines.  The result
is what `os.WriteFile` writes back over the profile file. -/
def rewriteProfile (content versionDir : Str) : Str :=
  joinLines ((splitLines content).filter keepLine ++ newExportLines versionDir)

/-- Digit accumulator of `strconv.Atoi`: consumes decimal digits, or fails
on any non-digit character. -/
def parseDigitsAux : Str → Nat → Option Nat
  | [], acc => some acc
  | c :: cs, acc =>
    if c.isDigit then parseDigitsAux cs (10 * acc + (c.toNat - 48)) else none

/-- Go `strconv.Atoi` on a 64-bit platform: optional sign, then decimal
digits only; the empty string, a lone sign, any non-digit character, and
values outside the `int64` range are errors (`none`). -/
def atoi : Str → Option Int
  | [] => none
  | '-' :: cs =>
    if cs.isEmpty then none
    else
      match parseDigitsAux cs 0 with
      | none => none
      | some n => if 9223372036854775808 < n then none else some (-(n : Int))
  | '+' :: cs =>
    if cs.isEmpty then none
    else
      match parseDigitsAux cs 0 with
      | none => none
      | some n => if 9223372036854775807 < n then none else some ((n : Int))
  | c :: cs =>
    match parseDigitsAux (c :: cs) 0 with
    | none => none
    | some n => if 9223372036854775807 < n then none else some ((n : Int))

deriving instance DecidableEq for Except

/-- A directory entry at the architecture level, as returned by
`os.ReadDir` on a version directory: a name and whether it is a directory. -/
structure ArchEntry where
  name : Str
  isDir : Bool
deriving DecidableEq

/-- A directory entry at the top (version) level.  `sub` models the result
of `os.ReadDir` on `<root>/<name>`: `none` when that read fails (the code
logs and skips the entry), `some entries` otherwise.  `sub` is only
consulted when `isDir` is true. -/
structure VersionEntry where
  name : Str
  isDir : Bool
  sub : Option (List ArchEntry)
deriving DecidableEq

/-- The state of the root directory `/usr/local/bin/go-switcher`:
absent (`os.Stat` reports not-exist / `os.ReadDir` fails with not-exist),
unreadable (exists but `os.ReadDir` fails), or present with its entries
in directory-listing order. -/
inductive RootState where
  | absent
  | unreadable
  | present (entries : List VersionEntry)
deriving DecidableEq

/-- One discovered installation: the parallel `versions`, `architectures`,
`paths` slices of the Go code, zipped into a record. -/
structure Installed where
  version : Str
  arch : Str
  path : Str
deriving DecidableEq

/-- The scan of a single top-level entry (shared loop body of
`listGoVersions` lines 152-171 and `switchGoVersion` lines 272-293, which
are textually identical): skip non-directories, skip version directories
whose read fails, and report each directory found inside. -/
def scanVersion (root : Str) (e : VersionEntry) : List Installed :=
  if e.isDir then
    match e.sub with
    | none => []
    | some archDirs =>
      archDirs.filterMap fun a =>
        if a.isDir then
          some ⟨e.name, a.name, root ++ "/".toList ++ e.name ++ "/".toList ++ a.name⟩
        else none
  else []

/-- The two-level directory enumeration over all top-level entries, in
listing order. -/
def scanDir (root : Str) : List VersionEntry → List Installed
  | [] => []
  | e :: es => scanVersion root e ++ scanDir root es

/-- The filesystem and profile state an invocation runs against.
`dirExists p` models `os.Stat p` not failing with not-exist;
`profile` is the content of `~/.profile` (`none`: `os.ReadFile` fails). -/
structure World where
  root : RootState
  dirExists : Str → Bool
  profile : Option Str

/-- Failure of `listGoVersions`: the only error return is a failed
`os.ReadDir` on an existing root (line 144). -/
inductive ListError where
  | readDirError
deriving DecidableEq

/-- The error returns of `switchGoVersion`, one constructor per `return
fmt.Errorf` site (lines 263, 296, 298, 307, 333). -/
inductive SwitchError where
  | readDirError
  | noVersionsFound
  | invalidNumber (count : Nat)
  | notInstalled (version arch : Str)
  | readProfileError
deriving DecidableEq

/-- Failure of `cleanGoVersions`: a failed `os.ReadDir` on an existing
root (line 226). -/
inductive CleanError where
  | readDirError
deriving DecidableEq

/-- Side effects of `switchGoVersion` in program order: the
`os.MkdirAll` of the workspace directory (line 317), the `os.ReadFile`
of the profile (line 331), and the `os.WriteFile` of the rewritten
profile (line 352). -/
inductive Event where
  | mkdirWorkspace (path : Str)
  | readProfile
  | writeProfile (content : Str)
deriving DecidableEq

/-- Effect of one event on the world: only the profile write changes
state visible to this model (the workspace `MkdirAll` touches no field
the operations read). -/
def applyEvent (w : World) : Event → World
  | .mkdirWorkspace _ => w
  | .readProfile => w
  | .writeProfile c => { w with profile := some c }

/-- Replay of an event trace over a world. -/
def applyEvents (w : World) (evs : List Event) : World := evs.foldl applyEvent w

/-- Function `listGoVersions` (src/main.go lines 133-190), restricted to what it
reports: a missing root prints a message and reports nothing (`ok []`),
an unreadable root is an error, and otherwise the scan result is printed
1-indexed in scan order. -/
def listGoVersions (w : World) : Except ListError (List Installed) :=
  match w.root with
  | .absent => .ok []
  | .unreadable => .error .readDirError
  | .present entries => .ok (scanDir goDownloadDir entries)

/-- Resolution of the `switch` argument (src/main.go lines 295-310): an
argument that `strconv.Atoi` accepts is a 1-based index into the scan
(out of range is an error; the `--arch` flag is ignored); anything else
is a literal version combined with the flag and a constructed path. -/
def resolveVersion (installed : List Installed) (input archFlag : Str) :
    Except SwitchError (Str × Str × Str) :=
  match atoi input with
  | some num =>
    if num < 1 ∨ (installed.length : Int) < num then
      .error (.invalidNumber installed.length)
    else
      let e := installed.getD (num - 1).toNat ⟨[], [], []⟩
      .ok (e.version, e.arch, e.path)
  | none =>
    .ok (input, archFlag,
      goDownloadDir ++ "/".toList ++ input ++ "/".toList ++ archFlag)

/-- Function `switchGoVersion` (src/main.go lines 250-372).  Note the root is read
with `os.ReadDir` directly, with no not-exist check, so an absent root is
a read error here (unlike `listGoVersions`).  The returned trace records
the side effects that happened before the return, in order; `os.MkdirAll`
and `os.WriteFile` are modelled as succeeding. -/
def switchGoVersion (w : World) (input archFlag : Str) :
    Except SwitchError Unit × List Event :=
  match w.root with
  | .absent => (.error .readDirError, [])
  | .unreadable => (.error .readDirError, [])
  | .present entries =>
    let installed := scanDir goDownloadDir entries
    if installed.length = 0 then (.error .noVersionsFound, [])
    else
      match resolveVersion installed input archFlag with
      | .error e => (.error e, [])
      | .ok (version, arch, versionDir) =>
        if w.dirExists versionDir = false then
          (.error (.notInstalled version arch), [])
        else
          match w.profile with
          | none =>
            (.error .readProfileError, [.mkdirWorkspace (goPath versionDir), .readProfile])
          | some content =>
            (.ok (), [.mkdirWorkspace (goPath versionDir), .readProfile,
                      .writeProfile (rewriteProfile content versionDir)])

/-- Function `cleanGoVersions` (src/main.go lines 216-248): a missing root and an
empty root are no-ops; otherwise every top-level directory entry is
removed with `os.RemoveAll` (modelled as succeeding, matching the
fully-successful case) and non-directory entries are skipped.  The second
component is the resulting root state. -/
def cleanGoVersions (w : World) : Except CleanError Unit × RootState :=
  match w.root with
  | .absent => (.ok (), .absent)
  | .unreadable => (.error .readDirError, .unreadable)
  | .present entries =>
    if entries.length = 0 then (.ok (), .present entries)
    else (.ok (), .present (entries.filter fun e => !e.isDir))

/-- External actions of `downloadGoVersion` in program order. -/
inductive DlEvent where
  | mkdirAll (path : Str)
  | runCmd (cmd : Str) (args : List Str)
  | removeFile (path : Str)
deriving DecidableEq

/-- Local `archiveName` of src/main.go line 197: `go<version>.<arch>.tar.gz`. -/
def archiveName (version arch : Str) : Str :=
  "go".toList ++ version ++ ".".toList ++ arch ++ ".tar.gz".toList

/-- Local `tmpArchivePath` of src/main.go line 198. -/
def tmpArchivePath (version arch : Str) : Str :=
  "/tmp/".toList ++ archiveName version arch

/-- Local `targetDir` of src/main.go line 199: `<root>/<version>/<arch>`. -/
def targetDir (version arch : Str) : Str :=
  goDownloadDir ++ "/".toList ++ version ++ "/".toList ++ arch

/-- Function `downloadGoVersion` (src/main.go lines 193-222): the sequence of
external actions on the success path — create the target tree, `wget` the
archive from the fixed base URL to /tmp, `tar`-extract it into the target
directory, delete the temporary archive. -/
def downloadGoVersion (version arch : Str) : List DlEvent :=
  [ .mkdirAll (targetDir version arch),
    .runCmd "wget".toList
      ["-O".toList, tmpArchivePath version arch,
       "https://go.dev/dl/".toList ++ archiveName version arch],
    .runCmd "tar".toList
      ["-xzf".toList, tmpArchivePath version arch, "-C".toList,
       targetDir version arch],
    .removeFile (tmpArchivePath version arch) ]

/-! Helper lemmas about the line-splitting primitives. -/

/-- Go `strings.Split` never returns an empty slice. -/
theorem splitLines_ne_nil (cs : Str) : splitLines cs ≠ [] := by
  cases cs with
  | nil => simp [splitLines]
  | cons c cs =>
    simp only [splitLines]
    cases h : splitLines cs with
    | nil => simp
    | cons l ls => by_cases hc : c = '\n' <;> simp [hc]

/-- Unfolding equation for `splitLines` on a cons cell, phrased against a
known result of the recursive call. -/
theorem splitLines_cons (c : Char) (cs : Str) {l : Str} {ls : List Str}
    (h : splitLines cs = l :: ls) :
    splitLines (c :: cs) = if c = '\n' then [] :: l :: ls else (c :: l) :: ls := by
  simp only [splitLines, h]

/-- No piece returned by the newline split contains a newline. -/
theorem newline_not_mem_of_mem_splitLines {cs l : Str} (hl : l ∈ splitLines cs) :
    '\n' ∉ l := by
  induction cs generalizing l with
  | nil =>
    simp only [splitLines, List.mem_singleton] at hl
    subst hl; simp
  | cons c cs ih =>
    cases h : splitLines cs with
    | nil => exact absurd h (splitLines_ne_nil cs)
    | cons m ms =>
      rw [splitLines_cons c cs h] at hl
      by_cases hc : c = '\n'
      · rw [if_pos hc] at hl
        rcases List.mem_cons.mp hl with h1 | h1
        · subst h1; simp
        · exact ih (by rw [h]; exact h1)
      · rw [if_neg hc] at hl
        rcases List.mem_cons.mp hl with h1 | h1
        · subst h1
          intro hmem
          rcases List.mem_cons.mp hmem with h2 | h2
          · exact hc h2.symm
          · exact ih (by rw [h]; exact List.mem_cons_self m ms) h2
        · exact ih (by rw [h]; exact List.mem_cons_of_mem m h1)

/-- A newline-free string splits into exactly itself. -/
theorem splitLines_of_not_mem {l : Str} (h : '\n' ∉ l) : splitLines l = [l] := by
  induction l with
  | nil => rfl
  | cons c cs ih =>
    rw [List.mem_cons] at h
    push_neg at h
    rw [splitLines_cons c cs (ih h.2), if_neg fun he => h.1 he.symm]

/-- Splitting past a newline-free line peels it off. -/
theorem splitLines_append_newline {l : Str} (h : '\n' ∉ l) (rest : Str) :
    splitLines (l ++ '\n' :: rest) = l :: splitLines rest := by
  induction l with
  | nil =>
    cases hr : splitLines rest with
    | nil => exact absurd hr (splitLines_ne_nil rest)
    | cons m ms =>
      rw [List.nil_append, splitLines_cons '\n' rest hr, if_pos rfl]
  | cons c cs ih =>
    rw [List.mem_cons] at h
    push_neg at h
    have hcs := ih h.2
    rw [List.cons_append]
    cases hsp : splitLines (cs ++ '\n' :: rest) with
    | nil => exact absurd hsp (splitLines_ne_nil _)
    | cons m ms =>
      rw [splitLines_cons c _ hsp, if_neg fun he => h.1 he.symm]
      rw [hsp] at hcs
      injection hcs with h1 h2
      rw [h1, h2]

/-- Split is a left inverse of join on nonempty lists of newline-free lines. -/
theorem splitLines_joinLines {ls : List Str} (hne : ls ≠ [])
    (h : ∀ l ∈ ls, '\n' ∉ l) : splitLines (joinLines ls) = ls := by
  induction ls with
  | nil => exact absurd rfl hne
  | cons l ls ih =>
    cases ls with
    | nil => exact splitLines_of_not_mem (h l (List.mem_cons_self _ _))
    | cons m ms =>
      have hj : joinLines (l :: m :: ms) = l ++ '\n' :: joinLines (m :: ms) := rfl
      rw [hj, splitLines_append_newline (h l (List.mem_cons_self _ _))]
      rw [ih (by simp) fun x hx => h x (List.mem_cons_of_mem l hx)]

/-! Helper lemmas about the substring check. -/

/-- A list is a prefix of itself followed by anything. -/
theorem strStartsWith_append (pre rest : Str) :
    strStartsWith (pre ++ rest) pre = true := by
  induction pre with
  | nil => cases rest <;> rfl
  | cons c cs ih => simp [strStartsWith, ih]

/-- A prefix occurrence is a substring occurrence. -/
theorem strContains_of_strStartsWith {s sub : Str}
    (h : strStartsWith s sub = true) : strContains s sub = true := by
  cases s with
  | nil =>
    cases sub with
    | nil => rfl
    | cons d t => simp [strStartsWith] at h
  | cons c s => simp [strContains, h]

/-- A string contains any of its own prefixes. -/
theorem strContains_append_self (m rest : Str) :
    strContains (m ++ rest) m = true :=
  strContains_of_strStartsWith (strStartsWith_append m rest)

/-! The three freshly appended export lines all fail the keep filter. -/

/-- The new PATH line contains the PATH marker, so it is dropped by a
subsequent rewrite. -/
theorem keepLine_pathExportLine (vd : Str) :
    keepLine (pathExportLine vd) = false := by
  simp [keepLine, pathExportLine, strContains_append_self]

/-- The new GOPATH line contains the GOPATH marker, so it is dropped by a
subsequent rewrite. -/
theorem keepLine_gopathExportLine (vd : Str) :
    keepLine (gopathExportLine vd) = false := by
  simp [keepLine, gopathExportLine, strContains_append_self]

/-- The new GOROOT line contains the GOROOT marker, so it is dropped by a
subsequent rewrite. -/
theorem keepLine_gorootExportLine (vd : Str) :
    keepLine (gorootExportLine vd) = false := by
  simp [keepLine, gorootExportLine, strContains_append_self]

/-- Concatenation of newline-free strings is newline-free. -/
theorem not_mem_append_of_not_mem {a b : Str} (ha : '\n' ∉ a) (hb : '\n' ∉ b) :
    '\n' ∉ a ++ b := by
  simp only [List.mem_append, not_or]
  exact ⟨ha, hb⟩

/-- When the version directory path is newline-free, so is every appended
line. -/
theorem not_mem_newExportLines {vd : Str} (h : '\n' ∉ vd) :
    ∀ l ∈ newExportLines vd, '\n' ∉ l := by
  intro l hl
  simp only [newExportLines, List.mem_cons, List.not_mem_nil, or_false] at hl
  rcases hl with rfl | rfl | rfl | rfl | rfl
  · simp
  · decide
  · exact not_mem_append_of_not_mem (by decide)
      (not_mem_append_of_not_mem h (by decide))
  · exact not_mem_append_of_not_mem (by decide)
      (not_mem_append_of_not_mem h (by decide))
  · exact not_mem_append_of_not_mem (by decide)
      (not_mem_append_of_not_mem h (by decide))

/-- Characterization of the rewrite output: splitting the written file
recovers exactly the kept old lines followed by the new block. -/
theorem splitLines_rewriteProfile (content vd : Str) (h : '\n' ∉ vd) :
    splitLines (rewriteProfile content vd) =
      (splitLines content).filter keepLine ++ newExportLines vd := by
  unfold rewriteProfile
  apply splitLines_joinLines
  · simp [newExportLines]
  · intro l hl
    rcases List.mem_append.mp hl with h1 | h1
    · exact newline_not_mem_of_mem_splitLines (List.mem_of_mem_filter h1)
    · exact not_mem_newExportLines h l h1

/-! Concrete worlds used by witnesses and counterexamples. -/

/-- A world whose root directory does not exist. -/
def wNoRoot : World := ⟨.absent, fun _ => false, none⟩

/-- A world whose root exists but holds no entries. -/
def wEmptyStore : World := ⟨.present [], fun _ => true, some []⟩

/-- A top-level directory entry for version 1.22.0 with one architecture. -/
def entrySample : VersionEntry :=
  ⟨"1.22.0".toList, true, some [⟨"linux-amd64".toList, true⟩]⟩

/-- A world with one installed version, every directory present, and a
small profile file. -/
def wOneVersion : World :=
  ⟨.present [entrySample], fun _ => true, some "PS1=x".toList⟩

/-- A world with one installed version but no profile file. -/
def wNoProfile : World := ⟨.present [entrySample], fun _ => true, none⟩

/-- A world whose root contains a single non-directory entry. -/
def wStrayFile : World :=
  ⟨.present [⟨"README.md".toList, false, none⟩], fun _ => true, none⟩

/-- A sample profile content with a stale GOPATH export in the middle. -/
def profileSample : Str :=
  "PS1=x\nexport GOPATH=/old/workspace\nalias ll=ls".toList

/-- A sample version directory path (newline-free). -/
def versionDirSample : Str :=
  "/usr/local/bin/go-switcher/1.22.0/linux-amd64".toList

/-- Claim C2: the profile rewrite of a successful switch splits the old
content into lines, drops every line containing any of the three fixed
export substrings, then appends a blank line, the comment line, and the
three new export lines pointing at the selected version's bin, workspace
and root paths; the written file is the join of exactly that line
sequence, so splitting it recovers the sequence. -/
theorem profile_rewrite_filters_and_appends (content vd : Str) (h : '\n' ∉ vd) :
    splitLines (rewriteProfile content vd) =
      (splitLines content).filter keepLine ++
        [[], commentLine, pathExportLine vd, gopathExportLine vd,
         gorootExportLine vd] :=
  splitLines_rewriteProfile content vd h

/-- Witness for C2 at a concrete profile and version directory. -/
theorem profile_rewrite_filters_and_appends_witness :
    '\n' ∉ versionDirSample ∧
      splitLines (rewriteProfile profileSample versionDirSample) =
        (splitLines profileSample).filter keepLine ++
          [[], commentLine, pathExportLine versionDirSample,
           gopathExportLine versionDirSample, gorootExportLine versionDirSample] :=
  ⟨by decide,
   profile_rewrite_filters_and_appends profileSample versionDirSample (by decide)⟩

/-- Claim C3: the rewrite is idempotent on the export lines — after two
consecutive rewrites with the same target version directory, the lines of
the resulting profile containing any of the three export markers are
exactly the single PATH/GOPATH/GOROOT triple for that target (the triple
written by the first rewrite is fully removed before the second appends
its own). -/
theorem profile_rewrite_idempotent_on_exports (content vd : Str) (h : '\n' ∉ vd) :
    (splitLines (rewriteProfile (rewriteProfile content vd) vd)).filter
        (fun l => !keepLine l) =
      [pathExportLine vd, gopathExportLine vd, gorootExportLine vd] := by
  rw [splitLines_rewriteProfile _ _ h, List.filter_append]
  have h1 : ((splitLines (rewriteProfile content vd)).filter keepLine).filter
      (fun l => !keepLine l) = [] := by
    rw [List.filter_filter]
    simp
  have e1 : keepLine [] = true := by decide
  have e2 : keepLine commentLine = true := by decide
  have h2 : (newExportLines vd).filter (fun l => !keepLine l) =
      [pathExportLine vd, gopathExportLine vd, gorootExportLine vd] := by
    simp [newExportLines, List.filter_cons, e1, e2, keepLine_pathExportLine,
          keepLine_gopathExportLine, keepLine_gorootExportLine]
  rw [h1, h2, List.nil_append]

/-- Witness for C3 at a concrete profile and version directory. -/
theorem profile_rewrite_idempotent_on_exports_witness :
    '\n' ∉ versionDirSample ∧
      (splitLines (rewriteProfile (rewriteProfile profileSample versionDirSample)
            versionDirSample)).filter (fun l => !keepLine l) =
        [pathExportLine versionDirSample, gopathExportLine versionDirSample,
         gorootExportLine versionDirSample] :=
  ⟨by decide,
   profile_rewrite_idempotent_on_exports profileSample versionDirSample (by decide)⟩

/-- Counterexample to C5 as stated: with an absent root, `switch` fails
with the read-directory error — it does not treat the missing root as an
empty store. -/
theorem switch_absent_root_is_read_failure :
    switchGoVersion wNoRoot "1".toList "linux-amd64".toList =
      (.error .readDirError, []) := by decide

/-- Claim C5 (amended): with an absent root, `list` reports an empty
store and no error, while `switch` reads the root without an existence
check and fails with a read error. -/
theorem absent_root_list_empty_switch_read_error (w : World) (input archFlag : Str)
    (hroot : w.root = .absent) :
    listGoVersions w = .ok [] ∧
      switchGoVersion w input archFlag = (.error .readDirError, []) := by
  constructor <;> simp [listGoVersions, switchGoVersion, hroot]

/-- Witness for amended C5 at a concrete absent-root world. -/
theorem absent_root_list_empty_switch_read_error_witness :
    wNoRoot.root = .absent ∧
      (listGoVersions wNoRoot = .ok [] ∧
        switchGoVersion wNoRoot "2".toList "darwin-amd64".toList =
          (.error .readDirError, [])) :=
  ⟨rfl, absent_root_list_empty_switch_read_error wNoRoot _ _ rfl⟩

/-- Counterexample to C4 as stated: with a present root whose scan yields
zero entries, the integer input 1 is out of range (1 > 0), yet `switch`
fails with the no-versions error rather than the range error, and the
range error for count 0 is a different value. -/
theorem switch_empty_scan_not_range_error :
    switchGoVersion wEmptyStore "1".toList "linux-amd64".toList =
      (.error .noVersionsFound, []) ∧
      SwitchError.noVersionsFound ≠ SwitchError.invalidNumber 0 := by decide

/-- Claim C4 (amended): for an input parsing as an integer n out of range
[1, count], `switch` fails — with the range error naming count when the
scan is nonempty, and with the no-versions error (raised before the
argument is examined) when the scan is empty — and in both cases the
trace is empty, so the profile file is unchanged. -/
theorem switch_out_of_range_no_mutation (w : World) (input archFlag : Str)
    (entries : List VersionEntry) (n : Int)
    (hroot : w.root = .present entries)
    (hparse : atoi input = some n)
    (hrange : n < 1 ∨ ((scanDir goDownloadDir entries).length : Int) < n) :
    switchGoVersion w input archFlag =
      (.error
        (if (scanDir goDownloadDir entries).length = 0 then .noVersionsFound
         else .invalidNumber (scanDir goDownloadDir entries).length), []) ∧
      (applyEvents w (switchGoVersion w input archFlag).2).profile = w.profile := by
  by_cases h0 : (scanDir goDownloadDir entries).length = 0
  · constructor <;> simp [switchGoVersion, hroot, h0, applyEvents]
  · have hmain : switchGoVersion w input archFlag =
        (.error (.invalidNumber (scanDir goDownloadDir entries).length), []) := by
      simp only [switchGoVersion, hroot]
      rw [if_neg h0]
      simp only [resolveVersion, hparse]
      rw [if_pos hrange]
    constructor
    · rw [hmain, if_neg h0]
    · rw [hmain]
      simp [applyEvents]

/-- Witness for amended C4: one installed version, integer input 2. -/
theorem switch_out_of_range_no_mutation_witness :
    atoi "2".toList = some 2 ∧
      (switchGoVersion wOneVersion "2".toList "linux-amd64".toList =
        (.error
          (if (scanDir goDownloadDir [entrySample]).length = 0 then .noVersionsFound
           else .invalidNumber (scanDir goDownloadDir [entrySample]).length), []) ∧
       (applyEvents wOneVersion
          (switchGoVersion wOneVersion "2".toList "linux-amd64".toList).2).profile =
         wOneVersion.profile) :=
  ⟨by decide,
   switch_out_of_range_no_mutation wOneVersion "2".toList "linux-amd64".toList
     [entrySample] 2 rfl (by decide) (by decide)⟩

/-- Claim C6: when the resolved version directory exists but the profile
file does not, `switch` fails with the read-profile error; the trace holds
only the workspace MkdirAll and the failed profile read, and no profile
file comes into existence. -/
theorem switch_missing_profile_fails (w : World) (input archFlag : Str)
    (entries : List VersionEntry) (version arch versionDir : Str)
    (hroot : w.root = .present entries)
    (hlen : (scanDir goDownloadDir entries).length ≠ 0)
    (hres : resolveVersion (scanDir goDownloadDir entries) input archFlag =
      .ok (version, arch, versionDir))
    (hdir : w.dirExists versionDir = true)
    (hprof : w.profile = none) :
    switchGoVersion w input archFlag =
      (.error .readProfileError,
       [.mkdirWorkspace (goPath versionDir), .readProfile]) ∧
      (applyEvents w (switchGoVersion w input archFlag).2).profile = none := by
  have hmain : switchGoVersion w input archFlag =
      (.error .readProfileError,
       [.mkdirWorkspace (goPath versionDir), .readProfile]) := by
    simp only [switchGoVersion, hroot]
    rw [if_neg hlen, hres]
    simp [hdir, hprof]
  constructor
  · exact hmain
  · rw [hmain]
    simp [applyEvents, applyEvent, hprof]

/-- Witness for C6: one installed version selected by index, no profile. -/
theorem switch_missing_profile_fails_witness :
    wNoProfile.profile = none ∧
      (switchGoVersion wNoProfile "1".toList "linux-amd64".toList =
        (.error .readProfileError,
         [.mkdirWorkspace
            (goPath "/usr/local/bin/go-switcher/1.22.0/linux-amd64".toList),
          .readProfile]) ∧
       (applyEvents wNoProfile
          (switchGoVersion wNoProfile "1".toList "linux-amd64".toList).2).profile =
         none) :=
  ⟨rfl,
   switch_missing_profile_fails wNoProfile "1".toList "linux-amd64".toList
     [entrySample] "1.22.0".toList "linux-amd64".toList
     "/usr/local/bin/go-switcher/1.22.0/linux-amd64".toList
     rfl (by decide) (by decide) rfl rfl⟩

/-- Counterexample to C7 as stated: a fully successful clean leaves a
non-directory top-level entry in place, so the root still has an entry. -/
theorem clean_leaves_stray_file :
    cleanGoVersions wStrayFile =
      (.ok (), .present [⟨"README.md".toList, false, none⟩]) ∧
      RootState.present [⟨"README.md".toList, false, none⟩] ≠ .present [] := by
  decide

/-- Claim C7 (amended): clean removes exactly the top-level directory
entries, recursively deleting each one; after a fully successful clean the
root contains no directory entries (non-directory entries survive). -/
theorem clean_removes_all_directories (w : World) (entries : List VersionEntry)
    (hroot : w.root = .present entries) :
    cleanGoVersions w = (.ok (), .present (entries.filter fun e => !e.isDir)) ∧
      ∀ e ∈ entries.filter (fun e => !e.isDir), e.isDir = false := by
  constructor
  · by_cases h0 : entries.length = 0
    · have he : entries = [] := List.length_eq_zero.mp h0
      subst he
      simp [cleanGoVersions, hroot]
    · simp [cleanGoVersions, hroot, h0]
  · intro e he
    simpa using List.of_mem_filter he

/-- Witness for amended C7 at a root holding one stray file. -/
theorem clean_removes_all_directories_witness :
    wStrayFile.root = .present [⟨"README.md".toList, false, none⟩] ∧
      (cleanGoVersions wStrayFile =
        (.ok (), .present
          ([⟨"README.md".toList, false, none⟩].filter fun e => !e.isDir)) ∧
       ∀ e ∈ [(⟨"README.md".toList, false, none⟩ : VersionEntry)].filter
          (fun e => !e.isDir), e.isDir = false) :=
  ⟨rfl, clean_removes_all_directories wStrayFile
    [⟨"README.md".toList, false, none⟩] rfl⟩

/-- Claim C8: clean on an absent root, or on a present root with no
entries, is an error-free no-op that leaves the root state untouched. -/
theorem clean_noop_on_absent_or_empty (w : World)
    (h : w.root = .absent ∨ w.root = .present []) :
    cleanGoVersions w = (.ok (), w.root) := by
  rcases h with h | h <;> simp [cleanGoVersions, h]

/-- Witness for C8 at a present-but-empty root. -/
theorem clean_noop_on_absent_or_empty_witness :
    (wEmptyStore.root = .absent ∨ wEmptyStore.root = .present []) ∧
      cleanGoVersions wEmptyStore = (.ok (), wEmptyStore.root) :=
  ⟨Or.inr rfl, clean_noop_on_absent_or_empty wEmptyStore (Or.inr rfl)⟩

/-- Claim C9: for every version and architecture, `download` creates the
target tree `<root>/<version>/<arch>` first, fetches the archive named
`go<version>.<arch>.tar.gz` from the fixed base URL with exactly that
filename appended, extracts it into the target directory, and removes the
temporary archive — in that order. -/
theorem download_builds_name_url_target (version arch : Str) :
    downloadGoVersion version arch =
      [ .mkdirAll ("/usr/local/bin/go-switcher/".toList ++ version ++
          "/".toList ++ arch),
        .runCmd "wget".toList
          ["-O".toList,
           "/tmp/go".toList ++ version ++ ".".toList ++ arch ++ ".tar.gz".toList,
           "https://go.dev/dl/go".toList ++ version ++ ".".toList ++ arch ++
             ".tar.gz".toList],
        .runCmd "tar".toList
          ["-xzf".toList,
           "/tmp/go".toList ++ version ++ ".".toList ++ arch ++ ".tar.gz".toList,
           "-C".toList,
           "/usr/local/bin/go-switcher/".toList ++ version ++ "/".toList ++ arch],
        .removeFile ("/tmp/go".toList ++ version ++ ".".toList ++ arch ++
          ".tar.gz".toList) ] := by
  have m1 : ∀ x : Str, goDownloadDir ++ ("/".toList ++ x) =
      "/usr/local/bin/go-switcher/".toList ++ x := by
    intro x
    rw [← List.append_assoc]
    rfl
  have m2 : ∀ x : Str, "/tmp/".toList ++ ("go".toList ++ x) =
      "/tmp/go".toList ++ x := by
    intro x
    rw [← List.append_assoc]
    rfl
  have m3 : ∀ x : Str, "https://go.dev/dl/".toList ++ ("go".toList ++ x) =
      "https://go.dev/dl/go".toList ++ x := by
    intro x
    rw [← List.append_assoc]
    rfl
  simp only [downloadGoVersion, targetDir, tmpArchivePath, archiveName,
    List.append_assoc, m1, m2, m3]

/-- The scan result `list` reports for the one-version sample world. -/
def installedSample : List Installed :=
  [⟨"1.22.0".toList, "linux-amd64".toList,
    "/usr/local/bin/go-switcher/1.22.0/linux-amd64".toList⟩]

/-- Claim C1: switching by a 1-based index i (an input `strconv.Atoi`
accepts, with 1 ≤ i ≤ count) selects exactly the (version, architecture)
entry that `list` reports at position i: both operations run the same
two-level enumeration in the same order, and the successful switch's
trace creates the workspace of, and writes exports derived from, precisely
that entry's path (the architecture flag being ignored). -/
theorem switch_by_index_matches_list (w : World) (input archFlag : Str)
    (i : Nat) (l : List Installed) (content : Str)
    (hl : listGoVersions w = .ok l)
    (hparse : atoi input = some (i : Int))
    (h1 : 1 ≤ i) (h2 : i ≤ l.length)
    (hdir : w.dirExists (l.getD (i - 1) ⟨[], [], []⟩).path = true)
    (hprof : w.profile = some content) :
    switchGoVersion w input archFlag =
      (.ok (),
       [.mkdirWorkspace (goPath (l.getD (i - 1) ⟨[], [], []⟩).path),
        .readProfile,
        .writeProfile (rewriteProfile content (l.getD (i - 1) ⟨[], [], []⟩).path)]) := by
  cases hroot : w.root with
  | absent =>
    exfalso
    simp only [listGoVersions, hroot, Except.ok.injEq] at hl
    rw [← hl] at h2
    simp only [List.length_nil] at h2
    omega
  | unreadable =>
    exfalso
    simp only [listGoVersions, hroot] at hl
    exact Except.noConfusion hl
  | present entries =>
    simp only [listGoVersions, hroot, Except.ok.injEq] at hl
    subst hl
    have hlen0 : ¬(scanDir goDownloadDir entries).length = 0 := by omega
    have hnotrange :
        ¬((i : Int) < 1 ∨ ((scanDir goDownloadDir entries).length : Int) < (i : Int)) := by
      push_neg
      constructor <;> omega
    have htoNat : ((i : Int) - 1).toNat = i - 1 := by omega
    simp only [List.getD_eq_getElem?_getD] at hdir
    simp only [switchGoVersion, hroot]
    rw [if_neg hlen0]
    simp only [resolveVersion, hparse]
    rw [if_neg hnotrange, htoNat]
    simp [hdir, hprof]

/-- Witness for C1: one installed version, index input 1; the arbitrary
architecture flag is ignored. -/
theorem switch_by_index_matches_list_witness :
    (listGoVersions wOneVersion = .ok installedSample ∧
        atoi "1".toList = some ((1 : Nat) : Int)) ∧
      switchGoVersion wOneVersion "1".toList "ignored-arch".toList =
        (.ok (),
         [.mkdirWorkspace (goPath (installedSample.getD 0 ⟨[], [], []⟩).path),
          .readProfile,
          .writeProfile (rewriteProfile "PS1=x".toList
            (installedSample.getD 0 ⟨[], [], []⟩).path)]) :=
  ⟨⟨by decide, by decide⟩,
   switch_by_index_matches_list wOneVersion "1".toList "ignored-arch".toList
     1 installedSample "PS1=x".toList (by decide) (by decide) (by decide)
     (by decide) (by decide) rfl⟩

/-- Claim C10: every successful switch performs, before the profile is
read or written, the MkdirAll that creates the selected version's
workspace directory `<versionDir>/workspace` when it is absent — the
trace is exactly that directory creation, then the profile read, then the
profile write. -/
theorem switch_success_creates_workspace_first (w : World) (input archFlag : Str)
    (hok : (switchGoVersion w input archFlag).1 = .ok ()) :
    ∃ versionDir content,
      (switchGoVersion w input archFlag).2 =
        [.mkdirWorkspace (goPath versionDir), .readProfile,
         .writeProfile (rewriteProfile content versionDir)] := by
  cases hroot : w.root with
  | absent =>
    rw [show switchGoVersion w input archFlag = (.error .readDirError, []) by
      simp [switchGoVersion, hroot]] at hok
    simp at hok
  | unreadable =>
    rw [show switchGoVersion w input archFlag = (.error .readDirError, []) by
      simp [switchGoVersion, hroot]] at hok
    simp at hok
  | present entries =>
    simp only [switchGoVersion, hroot] at hok ⊢
    by_cases hlen : (scanDir goDownloadDir entries).length = 0
    · rw [if_pos hlen] at hok
      simp at hok
    · rw [if_neg hlen] at hok ⊢
      cases hres : resolveVersion (scanDir goDownloadDir entries) input archFlag with
      | error e =>
        rw [hres] at hok
        simp at hok
      | ok t =>
        obtain ⟨version, arch, versionDir⟩ := t
        rw [hres] at hok
        by_cases hdir : w.dirExists versionDir = false
        · simp [hdir] at hok
        · rw [Bool.not_eq_false] at hdir
          cases hprof : w.profile with
          | none => simp [hdir, hprof] at hok
          | some content =>
            refine ⟨versionDir, content, ?_⟩
            simp [hdir, hprof]

/-- Witness for C10: the one-version sample world gives a successful
switch. -/
theorem switch_success_creates_workspace_first_witness :
    (switchGoVersion wOneVersion "1.22.0".toList "linux-amd64".toList).1 =
        .ok () ∧
      ∃ versionDir content,
        (switchGoVersion wOneVersion "1.22.0".toList "linux-amd64".toList).2 =
          [.mkdirWorkspace (goPath versionDir), .readProfile,
           .writeProfile (rewriteProfile content versionDir)] :=
  ⟨by decide,
   switch_success_creates_workspace_first wOneVersion "1.22.0".toList
     "linux-amd64".toList (by decide)⟩

example : atoi "-12".toList = some (-12) := by decide
example : atoi "1.22.0".toList = none := by decide
example : atoi "".toList = none := by decide
example : atoi "+3".toList = some 3 := by decide
example : splitLines "a\nb".toList = ["a".toList, "b".toList] := by decide
example : splitLines "".toList = [[]] := by decide
example : joinLines ["a".toList, "b".toList] = "a\nb".toList := by decide
example : strContains "xexport GOPATH=3".toList gopathMarker = true := by decide
example : strContains "abc".toList "d".toList = false := by decide
